import Mathlib

/-!
# PhotoSage `infrence.cpp`: a shallow embedding of the deployment helper

The program in `src/infrence.cpp` is a single `main` that parses its command
line, resolves a model repository, builds a catalog of weight files, downloads
the selected file when it is not cached, prepares a `llama.cpp` working copy,
compiles it and launches the server.

Modelling conventions.

* `std::string` is `String`; a `char` is a Lean `Char`.  Searching, truncation
  and case conversion are defined on the character list `String.data`.
* `int` is `Int`; the only place where the 32-bit range matters is `std::stoi`,
  which reports `std::out_of_range` outside of it.
* Everything the program does to the outside world is recorded, in program
  order, in a trace of `Event`s.  Everything the outside world answers
  (exit statuses, file existence, the output of `which`, the repository
  listing) comes from an `Env`; answers may depend on the trace so far.
* The interactive loops may run forever; they take a fuel argument and the
  run returns `none` when the fuel is used up.
* `popen` and `std::filesystem::exists` are taken to succeed; the only
  exceptions in the model are those of `std::stoi`.  The program never calls
  `setlocale`, so `toupper`, `isdigit` and `isspace` are those of the "C"
  locale.
-/

namespace PhotoSage

/-! ## Strings -/

/-- Position of the first occurrence of `pat` in `s`, as `std::string::find`
computes it; `none` stands for `std::string::npos`. -/
def findChars (pat : List Char) : List Char → Option Nat
  | [] => if pat.isPrefixOf [] then some 0 else none
  | c :: cs =>
    if pat.isPrefixOf (c :: cs) then some 0
    else (findChars pat cs).map (· + 1)

/-- The call `s.find(pat)`. -/
def find (s pat : String) : Option Nat := findChars pat.data s.data

/-- The call `s.substr(0, n)`, where `none` is `npos` (the whole string). -/
def substr0 (s : String) : Option Nat → String
  | none => s
  | some n => ⟨s.data.take n⟩

/-- The effect of `std::transform(.., ::toupper)` in the "C" locale: the letters
`a`-`z` are mapped to `A`-`Z`, every other character is kept. -/
def toUpper (s : String) : String := ⟨s.data.map Char.toUpper⟩

/-- The predicate `isspace` of the "C" locale. -/
def isspace (c : Char) : Bool :=
  c = ' ' || c = '\t' || c = '\n' || c.toNat = 11 || c.toNat = 12 || c = '\r'

/-- The predicate `isdigit`. -/
def isdigit (c : Char) : Bool := c.isDigit

/-- The character `s[0]`; for the empty string this is the terminating NUL. -/
def firstChar (s : String) : Char := s.data.headD (Char.ofNat 0)

/-- Exceptions of `std::stoi`. -/
inductive StoiError
  | invalid_argument
  | out_of_range
  deriving DecidableEq, Repr

/-- Value of a run of decimal digits. -/
def digitsValue (ds : List Char) : Nat :=
  ds.foldl (fun acc d => 10 * acc + (d.toNat - 48)) 0

/-- The call `std::stoi(s)`: leading white space is skipped, an optional sign is
read, then the longest run of decimal digits; whatever follows is ignored.
No digit at all is `std::invalid_argument`, a value outside of the range of
`int` is `std::out_of_range`. -/
def stoi (s : String) : Except StoiError Int :=
  let body := s.data.dropWhile isspace
  let (neg, rest) :=
    match body with
    | '-' :: r => (true, r)
    | '+' :: r => (false, r)
    | r => (false, r)
  let ds := rest.takeWhile isdigit
  if ds.isEmpty then .error .invalid_argument
  else
    let v : Int := if neg then -(digitsValue ds : Int) else (digitsValue ds : Int)
    if v < -2147483648 ∨ 2147483647 < v then .error .out_of_range else .ok v

/-- The call `std::to_string(n)` for an `int`. -/
def to_string (n : Int) : String := toString n

/-- The C string that `s.c_str()` hands to a C function: the characters of `s`
before its first NUL. -/
def c_str (s : String) : String := ⟨s.data.takeWhile (fun c => c ≠ Char.ofNat 0)⟩

/-- The string `s` holds no NUL character. -/
def nulFree (s : String) : Prop := Char.ofNat 0 ∉ s.data

instance (s : String) : Decidable (nulFree s) := by
  unfold nulFree
  infer_instance

/-! ## Repository normalisation (line 268) -/

/-- The suffix that marks a "browse at revision" view. -/
def treeMain : String := "/tree/main"

/-- The statement `repo = repo.substr(0, repo.find("/tree/main"))`. -/
def normalizeRepo (repo : String) : String := substr0 repo (find repo treeMain)

/-- The string `s` contains `pat`: `s.find(pat) != npos`. -/
def contains (s pat : String) : Bool := (find s pat).isSome

/-! ## The outside world -/

/-- One side effect of the program. -/
inductive Event
  /-- Text written to `std::cout`. -/
  | out (text : String)
  /-- Text written to `std::cerr`. -/
  | err (text : String)
  /-- The call `system(cmd)`. -/
  | system (cmd : String)
  /-- The call `chdir(path)`. -/
  | chdir (path : String)
  /-- A `std::ofstream` opened on `path` and closed again. -/
  | create (path : String)
  /-- The call `setenv(name, value, 1)`. -/
  | setenv (name value : String)
  deriving DecidableEq, Repr

/-- What the outside world answers.  The answers to `system`, to the
`std::ifstream` test and to `std::filesystem::exists` may depend on everything
the program has done before, which is the trace at the time of the question. -/
structure Env where
  /-- The macro `__APPLE__` is defined. -/
  isApple : Bool
  /-- Output of `exec(cmd)` (a `popen` of the command). -/
  exec : String → String
  /-- Return value of `system(cmd)`. -/
  systemStatus : List Event → String → Int
  /-- Result of `std::ifstream f(path); f.good()`. -/
  fileGood : List Event → String → Bool
  /-- Result of `std::filesystem::exists(path)`. -/
  pathExists : List Event → String → Bool
  /-- The listing collaborator `getModelFilesFromRepo`, which the source calls
  and does not define. -/
  getModelFilesFromRepo : String → List String

/-- How the process ends. -/
inductive Outcome
  /-- A `return` from `main` or a call of `exit`, with the status. -/
  | exit (status : Int)
  /-- An exception of `std::stoi` that nothing catches: `std::terminate`
  aborts the process. -/
  | uncaught (e : StoiError)
  deriving DecidableEq, Repr

/-- A finished run: how it ended and everything it did. -/
structure Result where
  outcome : Outcome
  trace : List Event
  deriving DecidableEq, Repr

/-- The commands passed to `system`, in order. -/
def systemCalls (tr : List Event) : List String :=
  tr.filterMap fun e => match e with
    | .system cmd => some cmd
    | _ => none

/-- The stream `std::cin`: the characters not yet read and whether the stream
is still `good()`. -/
structure Cin where
  buf : List Char
  good : Bool := true
  deriving DecidableEq, Repr

/-- The call `std::cin.get()` with its result discarded. -/
def Cin.get (cin : Cin) : Cin :=
  if cin.good then
    match cin.buf with
    | [] => { cin with good := false }
    | _ :: rest => { cin with buf := rest }
  else cin

/-- The statement `std::cin >> s`: the new value of `s` and the stream.  When the
stream is not good, or holds only white space, `s` keeps its value. -/
def Cin.readToken (cin : Cin) (s : String) : String × Cin :=
  if cin.good then
    match cin.buf.dropWhile isspace with
    | [] => (s, { buf := [], good := false })
    | c :: cs =>
      let rest := (c :: cs).dropWhile (fun x => !isspace x)
      (⟨(c :: cs).takeWhile (fun x => !isspace x)⟩, { buf := rest, good := !rest.isEmpty })
  else (s, cin)

/-! ## Helpers of the source (lines 30-79) -/

/-- The function `commandExists`. -/
def commandExists (env : Env) (command : String) : Bool :=
  contains (env.exec ("which " ++ command)) command

/-- Everything `printUsage` writes to `std::cout`. -/
def usageText : String :=
  "Usage:\n" ++
  "  ./server-llm [--port] [--repo] [--wtype] [--backend] [--gpu-id] [--n-parallel] [--n-kv] [--verbose] [-non-interactive]\n\n" ++
  "  --port:             port number, default is 8888\n" ++
  "  --repo:             path to a repo containing GGUF model files\n" ++
  "  --wtype:            weights type (f16, q8_0, q4_0, q4_1), default is user-input\n" ++
  "  --backend:          cpu, cuda, metal, depends on the OS\n" ++
  "  --gpu-id:           gpu id, default is 0\n" ++
  "  --n-parallel:       number of parallel requests, default is 8\n" ++
  "  --n-kv:             KV cache size, default is 4096\n" ++
  "  --verbose:          verbose output\n\n" ++
  "  --non-interactive:  run without asking a permission to run\n" ++
  "Example:\n\n" ++
  "  ./server-llm --repo https://huggingface.co/TheBloke/Llama-2-7B-GGUF --wtype q8_0\n\n"

/-- The function `printUsage`. -/
def printUsage (tr : List Event) : List Event := tr ++ [.out usageText]

/-- The function `downloadFile`: whether `curl` returned 0, and the trace.  The
command reaches `system` as `cmd.c_str()`, so it ends at the first NUL of
`cmd`. -/
def downloadFile (env : Env) (url filename : String) (tr : List Event) : Bool × List Event :=
  let cmd := "curl -o \"" ++ filename ++ "\" -# -L \"" ++ url ++ "\""
  (env.systemStatus tr (c_str cmd) == 0, tr ++ [.system (c_str cmd)])

/-- The function `fileExists`. -/
def fileExists (env : Env) (tr : List Event) (filename : String) : Bool :=
  env.fileGood tr filename

/-- The function `changeDirectory`; `main` ignores its result. -/
def changeDirectory (path : String) (tr : List Event) : List Event := tr ++ [.chdir path]

/-- The function `runCommand`: a non-zero status of `system` ends the process
with `exit(1)`.  The event records the composed command `cmd`; `system`
receives `cmd.c_str()`, which differs from `cmd` only when a listed file name
holds a NUL, the one variable part of the commands run this way. -/
def runCommand (env : Env) (cmd : String) (tr : List Event) : Except Result (List Event) :=
  if env.systemStatus tr cmd ≠ 0 then
    .error ⟨.exit 1, tr ++ [.system cmd, .err ("[-] Error executing command: " ++ cmd ++ "\n")]⟩
  else .ok (tr ++ [.system cmd])

/-! ## Argument parsing (lines 96-185) -/

/-- The local variables of `main` that the command line sets. -/
structure Config where
  isInteractive : Bool := true
  port : Int := 8888
  repo : String := ""
  wtype : String := ""
  backend : String := "cpu"
  gpuId : Int := 0
  nParallel : Int := 8
  nKv : Int := 4096
  verbose : Bool := false
  deriving DecidableEq, Repr

/-- The branch taken when a flag is the last argument: the message, the usage
text and `return 1`. -/
def missingValue (flag : String) (tr : List Event) : Result :=
  ⟨.exit 1, printUsage (tr ++ [.err ("[-] Missing value for " ++ flag ++ "\n")])⟩

/-- The loop `for (int i = 1; i < argc; ++i)` over `argv[1..]`; `tr` is the trace
so far, which the loop extends only on the branches that end the run. -/
def parseArgs : List String → Config → List Event → Except Result Config
  | [], cfg, _ => .ok cfg
  | arg :: rest, cfg, tr =>
    if arg = "--non-interactive" then parseArgs rest { cfg with isInteractive := false } tr
    else if arg = "--port" then
      match rest with
      | v :: rest' =>
        match stoi v with
        | .ok n => parseArgs rest' { cfg with port := n } tr
        | .error e => .error ⟨.uncaught e, tr⟩
      | [] => .error (missingValue "--port" tr)
    else if arg = "--repo" then
      match rest with
      | v :: rest' => parseArgs rest' { cfg with repo := v } tr
      | [] => .error (missingValue "--repo" tr)
    else if arg = "--wtype" then
      match rest with
      | v :: rest' => parseArgs rest' { cfg with wtype := v } tr
      | [] => .error (missingValue "--wtype" tr)
    else if arg = "--backend" then
      match rest with
      | v :: rest' => parseArgs rest' { cfg with backend := v } tr
      | [] => .error (missingValue "--backend" tr)
    else if arg = "--gpu-id" then
      match rest with
      | v :: rest' =>
        match stoi v with
        | .ok n => parseArgs rest' { cfg with gpuId := n } tr
        | .error e => .error ⟨.uncaught e, tr⟩
      | [] => .error (missingValue "--gpu-id" tr)
    else if arg = "--n-parallel" then
      match rest with
      | v :: rest' =>
        match stoi v with
        | .ok n => parseArgs rest' { cfg with nParallel := n } tr
        | .error e => .error ⟨.uncaught e, tr⟩
      | [] => .error (missingValue "--n-parallel" tr)
    else if arg = "--n-kv" then
      match rest with
      | v :: rest' =>
        match stoi v with
        | .ok n => parseArgs rest' { cfg with nKv := n } tr
        | .error e => .error ⟨.uncaught e, tr⟩
      | [] => .error (missingValue "--n-kv" tr)
    else if arg = "--verbose" then parseArgs rest { cfg with verbose := true } tr
    else if arg = "--help" then .error ⟨.exit 0, printUsage tr⟩
    else .error ⟨.exit 1, printUsage (tr ++ [.err ("[-] Unknown argument: " ++ arg ++ "\n")])⟩

/-! ## Repository selection (lines 194-268) -/

/-- The vector `repos` of sample repositories. -/
def repos : List String :=
  [ "https://huggingface.co/TheBloke/Llama-2-7B-GGUF",
    "https://huggingface.co/TheBloke/Llama-2-13B-GGUF",
    "https://huggingface.co/TheBloke/Llama-2-70B-GGUF",
    "https://huggingface.co/TheBloke/CodeLlama-7B-GGUF",
    "https://huggingface.co/TheBloke/CodeLlama-13B-GGUF",
    "https://huggingface.co/TheBloke/CodeLlama-34B-GGUF",
    "https://huggingface.co/TheBloke/Mistral-7B-v0.1-GGUF",
    "https://huggingface.co/TheBloke/zephyr-7B-beta-GGUF",
    "https://huggingface.co/TheBloke/OpenHermes-2-Mistral-7B-GGUF",
    "https://huggingface.co/TheBloke/CausalLM-7B-GGUF" ]

/-- The introduction written in interactive mode (lines 210-231). -/
def introText : String :=
  "\n" ++
  "[I] This is a helper script for deploying llama.cpp's server on this machine.\n\n" ++
  "    Based on the options that follow, the script might download a model file\n" ++
  "    from the internet, which can be a few GBs in size. The script will also\n" ++
  "    build the latest llama.cpp source code from GitHub, which can be unstable.\n" ++
  "\n" ++
  "    Upon success, an HTTP server will be started and it will serve the selected\n" ++
  "    model using llama.cpp for demonstration purposes.\n" ++
  "\n" ++
  "    Please note:\n" ++
  "\n" ++
  "    - All new data will be stored in the current folder\n" ++
  "    - The server will be listening on all network interfaces\n" ++
  "    - The server will run with default settings which are not always optimal\n" ++
  "    - Do not judge the quality of a model based on the results from this script\n" ++
  "    - Do not use this script to benchmark llama.cpp\n" ++
  "    - Do not use this script in production\n" ++
  "    - This script is only for demonstration purposes\n" ++
  "\n" ++
  "    If you don't know what you are doing, please press Ctrl-C to abort now\n" ++
  "\n" ++
  "    Press Enter to continue ...\n\n"

/-- The menu lines of the loop `for (size_t i = 0; i < repos.size(); ++i)`. -/
def repoMenu : Nat → List String → List Event
  | _, [] => []
  | i, r :: rs => .out ("    " ++ toString (i + 1) ++ ") " ++ r ++ "\n") :: repoMenu (i + 1) rs

/-- The loop `while (repo.empty())` of the repository prompt; each round starts
with `repo` empty. -/
def selectRepoLoop : Nat → Cin → List Event → Option (Except Result (String × Cin × List Event))
  | 0, _, _ => none
  | fuel + 1, cin, tr =>
    let tr := tr ++ [.out "\n    Or choose one from: https://huggingface.co/models?sort=trending&search=gguf\n\n",
                     .out "[+] Select repo: "]
    let (repo, cin) := cin.readToken ""
    if isdigit (firstChar repo) then
      match stoi repo with
      | .error e => some (.error ⟨.uncaught e, tr⟩)
      | .ok n =>
        let repoIndex := n - 1
        if 0 ≤ repoIndex ∧ repoIndex < repos.length then
          some (.ok (repos.getD repoIndex.toNat "", cin, tr))
        else selectRepoLoop fuel cin (tr ++ [.err ("[-] Invalid repo index: " ++ repo ++ "\n")])
    else if substr0 repo (some 4) = "http" then some (.ok (repo, cin, tr))
    else selectRepoLoop fuel cin (tr ++ [.err ("[-] Invalid repo URL: " ++ repo ++ "\n")])

/-- The block `if (repo.empty()) ...` followed by the normalisation of line 268. -/
def resolveRepo (fuel : Nat) (repo : String) (cin : Cin) (tr : List Event) :
    Option (Except Result (String × Cin × List Event)) :=
  if repo = "" then
    match selectRepoLoop fuel cin
        (tr ++ [.out "[+] No repo provided from the command line\n",
                .out "    Please select a number from the list below or enter an URL:\n\n"]
            ++ repoMenu 0 repos) with
    | none => none
    | some (.error r) => some (.error r)
    | some (.ok (repo, cin, tr)) => some (.ok (normalizeRepo repo, cin, tr))
  else some (.ok (normalizeRepo repo, cin, tr))

/-! ## The catalog (lines 187-192 and 275-302) -/

/-- The vector `wtypes` of weight-format tags. -/
def wtypes : List String :=
  [ "F16", "Q8_0", "Q4_0", "Q4_1", "Q5_0", "Q5_1", "Q6_K",
    "Q5_K_M", "Q5_K_S", "Q4_K_M", "Q4_K_S", "Q3_K_L",
    "Q3_K_M", "Q3_K_S", "Q2_K" ]

/-- The inner loop `for (size_t i = 0; i < wtypes.size(); ++i)` of the scan, started
at index `i` with the tags `ws` still to try: the index at which it breaks;
`none` is `iw == -1`. -/
def tagIndexFrom (file : String) : Nat → List String → Option Nat
  | _, [] => none
  | i, w :: ws => if contains (toUpper file) w then some i else tagIndexFrom file (i + 1) ws

/-- The loop `for (const auto& file : modelFiles)`: the vector `wfiles` and the
trace after it. -/
def catalogLoop (env : Env) : List String → List String → List Event → List String × List Event
  | [], wfiles, tr => (wfiles, tr)
  | file :: files, wfiles, tr =>
    match tagIndexFrom file 0 wtypes with
    | none => catalogLoop env files wfiles tr
    | some iw =>
      let mark : Char := if fileExists env tr file then '*' else ' '
      catalogLoop env files (wfiles.set iw file)
        (tr ++ [.out ("    " ++ toString (iw + 1) ++ ") " ++ String.singleton mark ++ " " ++ file ++ "\n")])

/-- The catalog `wfiles` that `main` builds from a listing. -/
def buildCatalog (env : Env) (modelFiles : List String) (tr : List Event) : List String × List Event :=
  catalogLoop env modelFiles (List.replicate wtypes.length "") (tr ++ [.out "[+] Model files:\n\n"])

/-! ## Weight type selection (lines 304-342) -/

/-- The loop `while (wtypeIndex == -1)` of the weight type prompt; `wtype` keeps
its value from one round to the next. -/
def selectWtypeLoop (wfiles : List String) :
    Nat → Cin → String → List Event → Option (Except Result (Nat × Cin × List Event))
  | 0, _, _, _ => none
  | fuel + 1, cin, wtype, tr =>
    let tr := tr ++ [.out "\n[+] Select weight type: "]
    let (wtype, cin) := cin.readToken wtype
    if isdigit (firstChar wtype) then
      match stoi wtype with
      | .error e => some (.error ⟨.uncaught e, tr⟩)
      | .ok n =>
        let wtypeIndex := n - 1
        if wtypeIndex < 0 ∨ (wfiles.length : Int) ≤ wtypeIndex ∨ wfiles.getD wtypeIndex.toNat "" = "" then
          selectWtypeLoop wfiles fuel cin wtype
            (tr ++ [.err ("[-] Invalid weight type index: " ++ wtype ++ "\n")])
        else some (.ok (wtypeIndex.toNat, cin, tr))
    else selectWtypeLoop wfiles fuel cin wtype (tr ++ [.err ("[-] Invalid weight type: " ++ wtype ++ "\n")])

/-- The loop of lines 326-331 that looks the supplied tag up in `wtypes`, started
at index `i`: the index at which it breaks; `none` is `wtypeIndex == -1`. -/
def wtypeIndexFrom (wtype : String) : Nat → List String → Option Nat
  | _, [] => none
  | i, w :: ws => if w = wtype then some i else wtypeIndexFrom wtype (i + 1) ws

/-- The branch for a tag supplied with `--wtype` (lines 323-337). -/
def checkSuppliedWtype (wtype : String) (wfiles : List String) (tr : List Event) :
    Except Result Unit :=
  match wtypeIndexFrom wtype 0 wtypes with
  | none => .error ⟨.exit 1, tr ++ [.err ("[-] Invalid weight type: " ++ wtype ++ "\n")]⟩
  | some wtypeIndex =>
    if wfiles.getD wtypeIndex "" = "" then
      .error ⟨.exit 1, tr ++ [.err ("[-] Invalid weight type: " ++ wtype ++ "\n")]⟩
    else .ok ()

/-- The selection of lines 304-342: the final `wtype`, the file `wfile` read
from the catalog at the position `std::find` gives, the stream and the trace. -/
def selectWeights (fuel : Nat) (wtype : String) (wfiles : List String) (cin : Cin)
    (tr : List Event) : Option (Except Result (String × String × Cin × List Event)) :=
  let chosen : Option (Except Result (String × Cin × List Event)) :=
    if wtype = "" then
      match selectWtypeLoop wfiles fuel cin wtype tr with
      | none => none
      | some (.error r) => some (.error r)
      | some (.ok (wtypeIndex, cin, tr)) => some (.ok (wtypes.getD wtypeIndex "", cin, tr))
    else
      match checkSuppliedWtype wtype wfiles tr with
      | .error r => some (.error r)
      | .ok () => some (.ok (wtype, cin, tr))
  match chosen with
  | none => none
  | some (.error r) => some (.error r)
  | some (.ok (wtype, cin, tr)) =>
    let wfile := wfiles.getD (wtypes.indexOf wtype) ""
    some (.ok (wtype, wfile, cin,
      tr ++ [.out ("[+] Selected weight type: " ++ wtype ++ " (" ++ wfile ++ ")\n")]))

/-! ## Download (lines 344-371) -/

/-- The value of `doDownload` after the `if` chain of lines 350-357, from the
two `fileExists` answers. -/
def doDownload (wfileExists chkExists : Bool) : Bool :=
  if !wfileExists then true
  else if !chkExists then true
  else false

/-- Lines 344-371: the URL, the marker name, the cache gate and the transfer. -/
def fetchWeights (env : Env) (repo wfile : String) (tr : List Event) :
    Except Result (List Event) :=
  let url := repo ++ "/resolve/main/" ++ wfile
  let chk := wfile ++ ".chk"
  if doDownload (fileExists env tr wfile) (fileExists env tr chk) then
    let tr := tr ++ [.out ("[+] Downloading weights from " ++ url ++ "\n")]
    match downloadFile env url wfile tr with
    | (false, tr) => .error ⟨.exit 1, tr ++ [.err "[-] Error downloading weights\n"]⟩
    | (true, tr) => .ok (tr ++ [.create chk])
  else .ok (tr ++ [.out ("[+] Using cached weights " ++ wfile ++ "\n")])

/-! ## The llama.cpp working copy (lines 373-397) -/

/-- The directory name `llamaCppDir`. -/
def llamaCppDir (port : Int) : String := "__llama_cpp_port_" ++ to_string port ++ "__"

/-- The path of the marker that says the directory was made by this program. -/
def scriptMarker (port : Int) : String := llamaCppDir port ++ "/__ggml_script__"

/-- Lines 373-397: refuse a foreign directory, update a cached working copy or
clone a new one, then write the marker. -/
def prepareWorkspace (env : Env) (port : Int) (tr : List Event) : Except Result (List Event) :=
  let dir := llamaCppDir port
  if env.pathExists tr dir && !fileExists env tr (dir ++ "/__ggml_script__") then
    .error ⟨.exit 1, tr ++ [.err ("[-] Directory " ++ dir ++ " already exists\n"),
                            .err "[-] Please remove it and try again\n"]⟩
  else if env.pathExists tr dir then
    let tr := changeDirectory dir
      (tr ++ [.out ("[+] Directory " ++ dir ++ " already exists\n"),
              .out "[+] Using cached llama.cpp\n"])
    match runCommand env "git reset --hard" tr with
    | .error r => .error r
    | .ok tr =>
      match runCommand env "git fetch" tr with
      | .error r => .error r
      | .ok tr =>
        match runCommand env "git checkout origin/master" tr with
        | .error r => .error r
        | .ok tr => .ok (changeDirectory ".." tr ++ [.create (dir ++ "/__ggml_script__")])
  else
    match runCommand env ("git clone https://github.com/ggerganov/llama.cpp " ++ dir)
        (tr ++ [.out "[+] Cloning llama.cpp\n"]) with
    | .error r => .error r
    | .ok tr => .ok (tr ++ [.create (dir ++ "/__ggml_script__")])

/-! ## Build (lines 399-421) -/

/-- Lines 399-421: enter the directory, `make clean`, then the build command of
the backend. -/
def buildLlama (env : Env) (cfg : Config) (tr : List Event) : Except Result (List Event) :=
  match runCommand env "make clean" (changeDirectory (llamaCppDir cfg.port) tr) with
  | .error r => .error r
  | .ok tr =>
    let log := if cfg.verbose then "" else "--silent"
    if cfg.backend = "cuda" then
      runCommand env ("GGML_CUDA=1 make -j llama-server " ++ log)
        (tr ++ [.out "[+] Building with CUDA backend\n"])
    else if cfg.backend = "cpu" then
      runCommand env ("make -j llama-server " ++ log)
        (tr ++ [.out "[+] Building with CPU backend\n"])
    else if cfg.backend = "metal" then
      runCommand env ("make -j llama-server " ++ log)
        (tr ++ [.out "[+] Building with Metal backend\n"])
    else .error ⟨.exit 1, tr ++ [.err ("[-] Unknown backend: " ++ cfg.backend ++ "\n")]⟩

/-! ## Launch (lines 423-450) -/

/-- The string `serverCmd` of lines 443-445. -/
def serverCmd (wfile : String) (port nKv nParallel : Int) (args : String) : String :=
  "./llama-server -m \"../" ++ wfile ++ "\" --host 0.0.0.0 --port " ++
    to_string port ++ " -c " ++ to_string nKv ++
    " -np \"" ++ to_string nParallel ++ "\" " ++ args

/-- Lines 423-450: the offload flag of the backend, the environment variable for
CUDA, the verbosity flag, and the server itself. -/
def runServer (env : Env) (cfg : Config) (wfile : String) (tr : List Event) : Result :=
  let tr := tr ++ [.out "[+] Running server\n"]
  let chosen : Except Result (String × List Event) :=
    if cfg.backend = "cuda" then
      .ok ("-ngl 999", tr ++ [.setenv "CUDA_VISIBLE_DEVICES" (to_string cfg.gpuId)])
    else if cfg.backend = "cpu" then .ok ("-ngl 0", tr)
    else if cfg.backend = "metal" then .ok ("-ngl 999", tr)
    else .error ⟨.exit 1, tr ++ [.err ("[-] Unknown backend: " ++ cfg.backend ++ "\n")]⟩
  match chosen with
  | .error r => r
  | .ok (args, tr) =>
    let args := if cfg.verbose then args ++ " --verbose" else args
    match runCommand env (serverCmd wfile cfg.port cfg.nKv cfg.nParallel args) tr with
    | .error r => r
    | .ok tr => ⟨.exit 0, tr⟩

/-! ## The whole of `main` -/

/-- The run from line 399 (build) to the end. -/
def fromBuild (env : Env) (cfg : Config) (wfile : String) (tr : List Event) : Result :=
  match buildLlama env cfg tr with
  | .error r => r
  | .ok tr => runServer env cfg wfile tr

/-- The run from line 373 (working copy) to the end. -/
def fromWorkspace (env : Env) (cfg : Config) (wfile : String) (tr : List Event) : Result :=
  match prepareWorkspace env cfg.port tr with
  | .error r => r
  | .ok tr => fromBuild env cfg wfile tr

/-- The run from line 344 (download) to the end; `repo` is the normalised
repository. -/
def fromDownload (env : Env) (cfg : Config) (repo wfile : String) (tr : List Event) : Result :=
  match fetchWeights env repo wfile tr with
  | .error r => r
  | .ok tr => fromWorkspace env cfg wfile tr

/-- The run from line 304 (weight type selection) to the end. -/
def fromSelection (env : Env) (fuel : Nat) (cfg : Config) (repo : String)
    (wfiles : List String) (cin : Cin) (tr : List Event) : Option Result :=
  match selectWeights fuel cfg.wtype wfiles cin tr with
  | none => none
  | some (.error r) => some r
  | some (.ok (_, wfile, _, tr)) => some (fromDownload env cfg repo wfile tr)

/-- The default of `backend` (lines 101-109). -/
def defaultBackend (env : Env) : String :=
  if env.isApple then "metal"
  else if commandExists env "nvcc" then "cuda"
  else "cpu"

/-- The run from the first line of `main` to the end of the catalog scan
(lines 82-302), for the arguments `argv[1..]` and the content of the standard
input: the parsed variables, the normalised repository, the catalog `wfiles`,
the stream and the trace. -/
def toSelection (env : Env) (fuel : Nat) (args : List String) (stdin : List Char) :
    Option (Except Result (Config × String × List String × Cin × List Event)) :=
  if !commandExists env "curl" then some (.error ⟨.exit 1, [.err "[-] curl not found\n"]⟩)
  else if !commandExists env "git" then some (.error ⟨.exit 1, [.err "[-] git not found\n"]⟩)
  else if !commandExists env "make" then some (.error ⟨.exit 1, [.err "[-] make not found\n"]⟩)
  else
    match parseArgs args { backend := defaultBackend env } [] with
    | .error r => some (.error r)
    | .ok cfg =>
      let cin : Cin := { buf := stdin }
      let (cin, tr) := if cfg.isInteractive then (cin.get, [.out introText]) else (cin, [])
      match resolveRepo fuel cfg.repo cin tr with
      | none => none
      | some (.error r) => some (.error r)
      | some (.ok (repo, cin, tr)) =>
        let (wfiles, tr) := buildCatalog env (env.getModelFilesFromRepo repo) tr
        some (.ok (cfg, repo, wfiles, cin, tr))

/-- The function `main`.  The result is `none` when an interactive loop is still
running after `fuel` rounds. -/
def main (env : Env) (fuel : Nat) (args : List String) (stdin : List Char) : Option Result :=
  match toSelection env fuel args stdin with
  | none => none
  | some (.error r) => some r
  | some (.ok (cfg, repo, wfiles, cin, tr)) => fromSelection env fuel cfg repo wfiles cin tr

/-! ## The catalog in the words of the specification -/

/-- The claiming tag of a file: the position of the first tag, in declaration
order, that occurs in the upper-cased file name. -/
def claimingTag (file : String) : Option Nat :=
  wtypes.findIdx? (fun tag => contains (toUpper file) tag)

/-- The entry of tag number `i`: the last file in listing order whose claiming
tag is `i`, and the empty entry when no file claims the tag. -/
def lastClaimed (files : List String) (i : Nat) : String :=
  ((files.filter (fun f => claimingTag f == some i)).getLast?).getD ""

/-! ## The launch command in the words of the specification -/

/-- The offload flag of a backend, followed by the verbosity flag when it is
set: `-ngl 0` for `cpu`, `-ngl 999` for `cuda` and `metal`. -/
def specArgs (backend : String) (verbose : Bool) : String :=
  (if backend = "cpu" then "-ngl 0" else "-ngl 999") ++ (if verbose then " --verbose" else "")

/-- The server command as the specification composes it. -/
def specServerCmd (backend : String) (port nKv nParallel : Int) (verbose : Bool)
    (f : String) : String :=
  "./llama-server -m \"../" ++ f ++ "\" --host 0.0.0.0 --port " ++ toString port ++ " -c " ++
    toString nKv ++ " -np \"" ++ toString nParallel ++ "\" " ++ specArgs backend verbose

/-! ## The command line in the words of the specification -/

/-- The flags that take a value. -/
def valueFlags : List String :=
  ["--port", "--repo", "--wtype", "--backend", "--gpu-id", "--n-parallel", "--n-kv"]

/-- Every flag of the command line. -/
def knownFlags : List String :=
  ["--non-interactive", "--port", "--repo", "--wtype", "--backend", "--gpu-id",
   "--n-parallel", "--n-kv", "--verbose", "--help"]

/-! ## Sample environments -/

/-- Output of `which` on a machine that has `curl`, `git` and `make` and no
`nvcc`. -/
def sampleWhich (cmd : String) : String :=
  if cmd = "which curl" then "/usr/bin/curl\n"
  else if cmd = "which git" then "/usr/bin/git\n"
  else if cmd = "which make" then "/usr/bin/make\n"
  else ""

/-- A Linux machine with the required tools on which every command succeeds,
with the given files and directories present and the given repository
listing. -/
def sampleEnv (present listing : List String) : Env where
  isApple := false
  exec := sampleWhich
  systemStatus := fun _ _ => 0
  fileGood := fun _ path => decide (path ∈ present)
  pathExists := fun _ path => decide (path ∈ present)
  getModelFilesFromRepo := fun _ => listing

/-! ## Facts about `find` -/

theorem findChars_eq_none (pat : List Char) (s : List Char) :
    findChars pat s = none ↔ ∀ j, j ≤ s.length → ¬ pat <+: s.drop j := by
  induction s with
  | nil =>
    simp only [findChars, List.isPrefixOf_iff_prefix]
    constructor
    · intro h j _
      simp only [List.drop_nil]
      intro hp
      simp [hp] at h
    · intro h
      have := h 0 (Nat.le_refl _)
      simp only [List.drop_zero] at this
      simp [this]
  | cons c cs ih =>
    simp only [findChars, List.isPrefixOf_iff_prefix]
    constructor
    · intro h j hj
      by_cases hp : pat <+: c :: cs
      · simp [hp] at h
      · simp only [hp, if_false, Option.map_eq_none'] at h
        cases j with
        | zero => simpa using hp
        | succ j =>
          simp only [List.drop_succ_cons]
          exact (ih.mp h) j (by simpa using hj)
    · intro h
      have h0 := h 0 (Nat.zero_le _)
      simp only [List.drop_zero] at h0
      simp only [h0, if_false, Option.map_eq_none']
      apply ih.mpr
      intro j hj
      have := h (j + 1) (by simpa using hj)
      simpa using this

theorem findChars_eq_some (pat : List Char) (s : List Char) (i : Nat) :
    findChars pat s = some i ↔
      i ≤ s.length ∧ pat <+: s.drop i ∧ ∀ j, j < i → ¬ pat <+: s.drop j := by
  induction s generalizing i with
  | nil =>
    simp only [findChars, List.isPrefixOf_iff_prefix, List.drop_nil, List.length_nil,
      Nat.le_zero_eq]
    constructor
    · intro h
      by_cases hp : pat <+: []
      · simp only [hp, if_true, Option.some.injEq] at h
        subst h
        exact ⟨rfl, hp, fun j hj => absurd hj (Nat.not_lt_zero _)⟩
      · simp [hp] at h
    · rintro ⟨rfl, hp, _⟩
      simp [hp]
  | cons c cs ih =>
    simp only [findChars, List.isPrefixOf_iff_prefix]
    by_cases hp : pat <+: c :: cs
    · simp only [hp, if_true, Option.some.injEq]
      constructor
      · intro h
        subst h
        exact ⟨Nat.zero_le _, by simpa using hp, fun j hj => absurd hj (Nat.not_lt_zero _)⟩
      · rintro ⟨_, _, h3⟩
        cases i with
        | zero => rfl
        | succ i => exact absurd (by simpa using hp) (h3 0 (Nat.succ_pos _))
    · simp only [hp, if_false, Option.map_eq_some']
      constructor
      · rintro ⟨k, hk, rfl⟩
        obtain ⟨h1, h2, h3⟩ := (ih k).mp hk
        refine ⟨by simpa using h1, by simpa using h2, ?_⟩
        intro j hj
        cases j with
        | zero => simpa using hp
        | succ j => simpa using h3 j (by omega)
      · rintro ⟨h1, h2, h3⟩
        cases i with
        | zero => exact absurd (by simpa using h2) hp
        | succ i =>
          refine ⟨i, (ih i).mpr ⟨by simpa using h1, by simpa using h2, ?_⟩, rfl⟩
          intro j hj
          simpa using h3 (j + 1) (by omega)

/-- The pattern `/tree/main` has no proper overlap with itself. -/
theorem treeMain_no_overlap (R S : List Char) (hR : R ≠ [])
    (h : treeMain.data <+: R ++ treeMain.data ++ S) : treeMain.data <+: R := by
  by_cases hlen : treeMain.data.length ≤ R.length
  · rw [List.append_assoc] at h
    exact List.prefix_of_prefix_length_le h (List.prefix_append _ _) hlen
  · exfalso
    have hl : treeMain.data.length = 10 := by decide
    rw [hl] at hlen
    have h1 := List.prefix_iff_eq_take.mp h
    rw [hl, List.append_assoc, List.take_append_eq_append_take, List.take_append_eq_append_take] at h1
    have h2 : List.take 10 R = R := List.take_of_length_le (by omega)
    have h3 : 10 - R.length - treeMain.data.length = 0 := by omega
    rw [h2, h3] at h1
    simp only [List.take_zero, List.append_nil] at h1
    have hn : 0 < R.length := List.length_pos.mpr hR
    have h4 : treeMain.data.drop R.length = (treeMain.data.take (10 - R.length)) := by
      conv_lhs => rw [h1]
      simp
    have key : ∀ n, n < 10 → 0 < n →
        treeMain.data.drop n ≠ treeMain.data.take (10 - n) := by decide
    exact key R.length (by omega) hn h4

theorem find_none_of_contains_false (s pat : String) (h : contains s pat = false) :
    find s pat = none := by
  simpa [contains] using h

theorem normalizeRepo_data_cases (x : String) :
    (find x treeMain = none ∧ normalizeRepo x = x) ∨
    (∃ i, find x treeMain = some i ∧ (normalizeRepo x).data = x.data.take i) := by
  unfold normalizeRepo
  cases h : find x treeMain with
  | none => exact Or.inl ⟨rfl, rfl⟩
  | some i => exact Or.inr ⟨i, rfl, rfl⟩

theorem contains_normalizeRepo (x : String) : contains (normalizeRepo x) treeMain = false := by
  rcases normalizeRepo_data_cases x with ⟨h, he⟩ | ⟨i, h, he⟩
  · rw [he]; simp [contains, h]
  · have hs := (findChars_eq_some _ _ _).mp h
    obtain ⟨h1, h2, h3⟩ := hs
    have : find (normalizeRepo x) treeMain = none := by
      unfold find
      rw [he]
      apply (findChars_eq_none _ _).mpr
      intro j hj hp
      rw [List.length_take, Nat.min_eq_left h1] at hj
      have hpre : (x.data.take i).drop j <+: x.data.drop j := by
        have := List.take_prefix i x.data
        obtain ⟨t, ht⟩ := this
        refine ⟨t, ?_⟩
        conv_rhs => rw [← ht]
        rw [List.drop_append_of_le_length]
        rw [List.length_take, Nat.min_eq_left h1]; exact hj
      have hp2 : treeMain.data <+: x.data.drop j := hp.trans hpre
      rcases Nat.lt_or_ge j i with hlt | hge
      · exact h3 j hlt hp2
      · have hji : j = i := Nat.le_antisymm hj hge
        subst hji
        have hnil : (x.data.take j).drop j = [] := by
          apply List.drop_eq_nil_of_le
          rw [List.length_take]; exact Nat.min_le_left _ _
        rw [hnil] at hp
        have := List.prefix_nil.mp hp
        exact absurd this (by decide)
    simp [contains, this]

theorem normalizeRepo_of_not_contains (x : String) (h : contains x treeMain = false) :
    normalizeRepo x = x := by
  unfold normalizeRepo
  rw [find_none_of_contains_false x _ h]
  rfl

theorem normalizeRepo_append (R S : String) (hR : contains R treeMain = false) :
    normalizeRepo (R ++ treeMain ++ S) = R := by
  have hnone := (findChars_eq_none _ _).mp (find_none_of_contains_false R _ hR)
  have hfind : find (R ++ treeMain ++ S) treeMain = some R.data.length := by
    unfold find
    apply (findChars_eq_some _ _ _).mpr
    simp only [String.data_append]
    refine ⟨by simp, ?_, ?_⟩
    · rw [List.append_assoc, List.drop_left]
      exact List.prefix_append _ _
    · intro j hj hp
      rw [List.append_assoc, List.drop_append_of_le_length (Nat.le_of_lt hj),
        ← List.append_assoc] at hp
      have hne : R.data.drop j ≠ [] := by
        intro hnil
        have := List.drop_eq_nil_iff.mp hnil
        omega
      exact hnone j (Nat.le_of_lt hj) (treeMain_no_overlap _ _ hne hp)
  unfold normalizeRepo
  rw [hfind]
  apply String.ext
  simp [substr0, List.append_assoc]

/-- C10: normalisation keeps the canonical root.  For `R` without `/tree/main`
and any `S`, normalising `R ++ "/tree/main" ++ S` gives `R` and normalising `R`
gives `R`; for every input `x` the result holds no `/tree/main`, is an initial
part of `x`, and normalising it again changes nothing. -/
theorem normalizeRepo_canonical (R S x : String) (hR : contains R treeMain = false) :
    (normalizeRepo (R ++ treeMain ++ S) = R ∧ normalizeRepo R = R) ∧
    (contains (normalizeRepo x) treeMain = false ∧
      (∃ t : String, normalizeRepo x ++ t = x) ∧
      normalizeRepo (normalizeRepo x) = normalizeRepo x) := by
  refine ⟨⟨normalizeRepo_append R S hR, normalizeRepo_of_not_contains R hR⟩,
    contains_normalizeRepo x, ?_, normalizeRepo_of_not_contains _ (contains_normalizeRepo x)⟩
  rcases normalizeRepo_data_cases x with ⟨_, he⟩ | ⟨i, _, he⟩
  · exact ⟨"", by rw [he]; apply String.ext; simp⟩
  · exact ⟨⟨x.data.drop i⟩, by apply String.ext; simp [he]⟩

theorem normalizeRepo_canonical_witness :
    (normalizeRepo ("https://huggingface.co/TheBloke/Llama-2-7B-GGUF" ++ treeMain ++ "/x") =
        "https://huggingface.co/TheBloke/Llama-2-7B-GGUF" ∧
      normalizeRepo "https://huggingface.co/TheBloke/Llama-2-7B-GGUF" =
        "https://huggingface.co/TheBloke/Llama-2-7B-GGUF") ∧
    (contains (normalizeRepo "a/tree/main/tree/main") treeMain = false ∧
      (∃ t : String, normalizeRepo "a/tree/main/tree/main" ++ t = "a/tree/main/tree/main") ∧
      normalizeRepo (normalizeRepo "a/tree/main/tree/main") = normalizeRepo "a/tree/main/tree/main") :=
  normalizeRepo_canonical "https://huggingface.co/TheBloke/Llama-2-7B-GGUF" "/x"
    "a/tree/main/tree/main" (by decide)

/-! ## The catalog -/

theorem tagIndexFrom_eq_findIdx (file : String) (i : Nat) (ws : List String) :
    tagIndexFrom file i ws = ws.findIdx? (fun tag => contains (toUpper file) tag) i := by
  induction ws generalizing i with
  | nil => rfl
  | cons w ws ih =>
    simp only [tagIndexFrom, List.findIdx?]
    split
    · rfl
    · exact ih (i + 1)

theorem tagIndexFrom_bound (file : String) (i k : Nat) (ws : List String)
    (h : tagIndexFrom file i ws = some k) : i ≤ k ∧ k < i + ws.length := by
  induction ws generalizing i with
  | nil => simp [tagIndexFrom] at h
  | cons w ws ih =>
    simp only [tagIndexFrom] at h
    split at h
    · cases h
      simp
    · have := ih (i + 1) h
      simp only [List.length_cons]
      omega

theorem tagIndexFrom_eq_claimingTag (file : String) :
    tagIndexFrom file 0 wtypes = claimingTag file :=
  tagIndexFrom_eq_findIdx file 0 wtypes

theorem claimingTag_lt (file : String) (i : Nat) (h : claimingTag file = some i) :
    i < wtypes.length := by
  rw [← tagIndexFrom_eq_claimingTag] at h
  have := tagIndexFrom_bound file 0 i wtypes h
  omega

theorem catalogLoop_length (env : Env) (files w : List String) (tr : List Event) :
    (catalogLoop env files w tr).1.length = w.length := by
  induction files generalizing w tr with
  | nil => rfl
  | cons f fs ih =>
    simp only [catalogLoop]
    split
    · exact ih w tr
    · rw [ih]
      exact List.length_set _ _ _

theorem catalogLoop_entry (env : Env) (files w : List String) (tr : List Event) (i : Nat)
    (hi : i < w.length) :
    (catalogLoop env files w tr).1.getD i "" =
      ((files.filter (fun f => claimingTag f == some i)).getLast?).getD (w.getD i "") := by
  induction files generalizing w tr with
  | nil => rfl
  | cons f fs ih =>
    simp only [catalogLoop]
    split
    next hnone =>
      rw [tagIndexFrom_eq_claimingTag] at hnone
      rw [ih w tr hi]
      simp [List.filter_cons, hnone]
    next iw hsome =>
      rw [tagIndexFrom_eq_claimingTag] at hsome
      rw [ih _ _ (by rw [List.length_set]; exact hi)]
      by_cases hiw : iw = i
      · subst hiw
        simp only [List.filter_cons, hsome, beq_self_eq_true, if_true, List.getLast?_cons]
        simp [List.getD_eq_getElem?_getD, List.getElem?_set, hi]
      · have hne : (some iw == some i) = false := by simpa using hiw
        simp only [List.filter_cons, hsome, hne]
        simp [List.getD_eq_getElem?_getD, List.getElem?_set, hiw]

theorem buildCatalog_eq (env : Env) (files : List String) (tr : List Event) :
    (buildCatalog env files tr).1 = (List.range wtypes.length).map (lastClaimed files) := by
  apply List.ext_getElem
  · simp [buildCatalog, catalogLoop_length]
  · intro n h1 h2
    have hn : n < wtypes.length := by simpa using h2
    have := catalogLoop_entry env files (List.replicate wtypes.length "")
      (tr ++ [.out "[+] Model files:\n\n"]) n (by simpa using hn)
    rw [List.getD_eq_getElem _ _ (by simpa [buildCatalog] using h1)] at this
    simp only [buildCatalog]
    rw [this]
    simp [lastClaimed, List.getD_eq_getElem?_getD, hn]

theorem lastClaimed_ne_empty (files : List String) (i : Nat) (f : String)
    (h : lastClaimed files i = f) (hf : f ≠ "") : f ∈ files ∧ claimingTag f = some i := by
  unfold lastClaimed at h
  cases hl : (files.filter (fun f => claimingTag f == some i)).getLast? with
  | none => rw [hl] at h; exact absurd h.symm hf
  | some g =>
    rw [hl] at h
    simp only [Option.getD_some] at h
    subst h
    have := List.mem_of_getLast?_eq_some hl
    simpa using this

/-- C1: for every listing, the catalog that `main` builds holds for each of the
15 tags, in declaration order, the last file in listing order whose claiming
tag is that tag, and the empty entry when no file claims it.  Every non-empty
entry is a listed file claimed by the tag of its position, so a file that
matches no tag is stored nowhere; no file name is stored under two tags; and
the catalog depends on the listing alone, not on the environment or on what
the run did before. -/
theorem catalog_last_claimed (env : Env) (tr : List Event) (files : List String) :
    wtypes.length = 15 ∧
    (buildCatalog env files tr).1 = (List.range wtypes.length).map (lastClaimed files) ∧
    (∀ (i : Nat) (f : String), (buildCatalog env files tr).1[i]? = some f → f ≠ "" →
      f ∈ files ∧ claimingTag f = some i) ∧
    (∀ i : Nat, i < wtypes.length → (∀ f ∈ files, claimingTag f ≠ some i) →
      (buildCatalog env files tr).1[i]? = some "") ∧
    (∀ (i j : Nat) (f : String), f ≠ "" → (buildCatalog env files tr).1[i]? = some f →
      (buildCatalog env files tr).1[j]? = some f → i = j) ∧
    (∀ (env' : Env) (tr' : List Event),
      (buildCatalog env' files tr').1 = (buildCatalog env files tr).1) := by
  have hentry : ∀ (i : Nat) (f : String), (buildCatalog env files tr).1[i]? = some f →
      i < wtypes.length ∧ lastClaimed files i = f := by
    intro i f h
    rw [buildCatalog_eq] at h
    simp only [List.getElem?_map, Option.map_eq_some'] at h
    obtain ⟨k, hk, hf⟩ := h
    have hk' := List.getElem?_eq_some_iff.mp hk
    obtain ⟨hlt, hv⟩ := hk'
    simp only [List.getElem_range] at hv
    subst hv
    exact ⟨by simpa using hlt, hf⟩
  refine ⟨rfl, buildCatalog_eq env files tr, ?_, ?_, ?_, ?_⟩
  · intro i f h hf
    exact lastClaimed_ne_empty files i f (hentry i f h).2 hf
  · intro i hi hnone
    rw [buildCatalog_eq]
    have hfilter : files.filter (fun f => claimingTag f == some i) = [] := by
      apply List.filter_eq_nil_iff.mpr
      intro f hf
      simpa using hnone f hf
    simp [lastClaimed, hfilter, hi]
  · intro i j f hf hi hj
    have h1 := (lastClaimed_ne_empty files i f (hentry i f hi).2 hf).2
    have h2 := (lastClaimed_ne_empty files j f (hentry j f hj).2 hf).2
    rw [h1] at h2
    exact Option.some.inj h2
  · intro env' tr'
    rw [buildCatalog_eq, buildCatalog_eq]

/-! ## The cache gate and the download -/

/-- C2: over the four combinations of "artifact exists" and "marker exists" the
download decision is true in the three where one of them is missing and false
exactly when both exist; and when both exist the download step only writes
the "Using cached weights" line: it issues no command, so no transfer. -/
theorem cache_gate (env : Env) (repo wfile : String) (tr : List Event)
    (hfile : fileExists env tr wfile = true)
    (hchk : fileExists env tr (wfile ++ ".chk") = true) :
    (doDownload false false = true ∧ doDownload false true = true ∧
      doDownload true false = true ∧ doDownload true true = false) ∧
    (∀ a m : Bool, doDownload a m = false ↔ (a = true ∧ m = true)) ∧
    fetchWeights env repo wfile tr =
      .ok (tr ++ [.out ("[+] Using cached weights " ++ wfile ++ "\n")]) ∧
    systemCalls (tr ++ [.out ("[+] Using cached weights " ++ wfile ++ "\n")]) =
      systemCalls tr := by
  refine ⟨by decide, by decide, ?_, ?_⟩
  · simp [fetchWeights, hfile, hchk, doDownload]
  · simp [systemCalls]

theorem c_str_of_nulFree (s : String) (h : nulFree s) : c_str s = s := by
  unfold c_str
  apply String.ext
  apply List.takeWhile_eq_self_iff.mpr
  intro c hc
  have hne : c ≠ Char.ofNat 0 := fun e => h (e ▸ hc)
  simpa using hne

theorem nulFree_append (a b : String) (ha : nulFree a) (hb : nulFree b) :
    nulFree (a ++ b) := by
  unfold nulFree at *
  simp only [String.data_append, List.mem_append, not_or]
  exact ⟨ha, hb⟩

theorem nulFree_curl (url f : String) (hu : nulFree url) (hf : nulFree f) :
    nulFree ("curl -o \"" ++ f ++ "\" -# -L \"" ++ url ++ "\"") := by
  apply nulFree_append _ _ _ (by decide)
  apply nulFree_append _ _ _ hu
  apply nulFree_append _ _ _ (by decide)
  exact nulFree_append _ _ (by decide) hf

/-- C6, as the code has it: when a download is required and neither the
repository `r` nor the file `f` holds a NUL character, the transfer is the
`curl` command from the URL `r ++ "/resolve/main/" ++ f` to the target `f`; on
status 0 the marker `f ++ ".chk"` is created and the run goes on, on any other
status the run ends with status 1 right after the error message, with no
marker and no further command. -/
theorem download_marker (env : Env) (cfg : Config) (r f : String) (tr : List Event)
    (hneed : doDownload (fileExists env tr f) (fileExists env tr (f ++ ".chk")) = true)
    (hr : nulFree r) (hf : nulFree f) :
    let url := r ++ "/resolve/main/" ++ f
    let cmd := "curl -o \"" ++ f ++ "\" -# -L \"" ++ url ++ "\""
    let tr1 := tr ++ [.out ("[+] Downloading weights from " ++ url ++ "\n")]
    (env.systemStatus tr1 cmd = 0 →
      fetchWeights env r f tr = .ok (tr1 ++ [.system cmd, .create (f ++ ".chk")])) ∧
    (env.systemStatus tr1 cmd ≠ 0 →
      fetchWeights env r f tr =
        .error ⟨.exit 1, tr1 ++ [.system cmd, .err "[-] Error downloading weights\n"]⟩ ∧
      fromDownload env cfg r f tr =
        ⟨.exit 1, tr1 ++ [.system cmd, .err "[-] Error downloading weights\n"]⟩) := by
  intro url cmd tr1
  have hurl : nulFree url :=
    nulFree_append _ _ (nulFree_append _ _ hr (by decide)) hf
  have hc : c_str cmd = cmd := c_str_of_nulFree _ (nulFree_curl url f hurl hf)
  simp only [url, cmd] at hc
  constructor
  · intro h0
    simp only [fetchWeights, hneed, if_true, downloadFile, hc]
    have : (env.systemStatus tr1 cmd == 0) = true := by simpa using h0
    simp only [url, cmd, tr1] at this
    simp [this, url, cmd, tr1]
  · intro h0
    have hf : fetchWeights env r f tr =
        .error ⟨.exit 1, tr1 ++ [.system cmd, .err "[-] Error downloading weights\n"]⟩ := by
      simp only [fetchWeights, hneed, if_true, downloadFile, hc]
      have : (env.systemStatus tr1 cmd == 0) = false := by simpa using h0
      simp only [url, cmd, tr1] at this
      simp [this, url, cmd, tr1]
    exact ⟨hf, by simp only [fromDownload, hf]⟩

/-! ## The working copy -/

/-- C3: when the directory `__llama_cpp_port_<port>__` exists and its marker
`__ggml_script__` does not, the run that reaches the working-copy step ends
there with status 1; all it does is write two lines to the error stream, so
no `git` or `make` command is issued, the marker is not created and the
directory is not entered. -/
theorem foreign_directory_untouched (env : Env) (cfg : Config) (wfile : String)
    (tr : List Event)
    (hdir : env.pathExists tr (llamaCppDir cfg.port) = true)
    (hmark : fileExists env tr (scriptMarker cfg.port) = false) :
    llamaCppDir cfg.port = "__llama_cpp_port_" ++ toString cfg.port ++ "__" ∧
    scriptMarker cfg.port = llamaCppDir cfg.port ++ "/__ggml_script__" ∧
    fromWorkspace env cfg wfile tr =
      ⟨.exit 1, tr ++ [.err ("[-] Directory " ++ llamaCppDir cfg.port ++ " already exists\n"),
                       .err "[-] Please remove it and try again\n"]⟩ ∧
    systemCalls (fromWorkspace env cfg wfile tr).trace = systemCalls tr ∧
    (∀ e ∈ (fromWorkspace env cfg wfile tr).trace,
      (∃ p, e = .chdir p) ∨ (∃ p, e = .create p) → e ∈ tr) := by
  have hrun : fromWorkspace env cfg wfile tr =
      ⟨.exit 1, tr ++ [.err ("[-] Directory " ++ llamaCppDir cfg.port ++ " already exists\n"),
                       .err "[-] Please remove it and try again\n"]⟩ := by
    simp only [scriptMarker] at hmark
    simp [fromWorkspace, prepareWorkspace, hdir, hmark]
  refine ⟨rfl, rfl, hrun, ?_, ?_⟩
  · rw [hrun]; simp [systemCalls]
  · rw [hrun]
    intro e he hk
    simp only [List.mem_append, List.mem_cons, List.mem_singleton, List.not_mem_nil,
      or_false] at he
    rcases he with he | he | he
    · exact he
    · subst he; rcases hk with ⟨p, hp⟩ | ⟨p, hp⟩ <;> cases hp
    · subst he; rcases hk with ⟨p, hp⟩ | ⟨p, hp⟩ <;> cases hp

/-! ## Launch -/

theorem serverCmd_eq_spec (backend : String) (port nKv nParallel : Int) (verbose : Bool)
    (f : String) (hb : backend = "cpu" ∨ backend = "cuda" ∨ backend = "metal") :
    serverCmd f port nKv nParallel
        (if verbose then
          (if backend = "cuda" then "-ngl 999" else if backend = "cpu" then "-ngl 0"
            else "-ngl 999") ++ " --verbose"
         else
          (if backend = "cuda" then "-ngl 999" else if backend = "cpu" then "-ngl 0"
            else "-ngl 999")) =
      specServerCmd backend port nKv nParallel verbose f := by
  rcases hb with rfl | rfl | rfl <;> cases verbose <;>
    simp [serverCmd, specServerCmd, specArgs, to_string]

/-- C7: for a backend among `cpu`, `cuda`, `metal`, the launch step issues
exactly one command, the server command of the specification (offload flag
`-ngl 0` for `cpu`, `-ngl 999` for `cuda` and `metal`, then ` --verbose` exactly
when the flag is set), and before it sets `CUDA_VISIBLE_DEVICES`, to the decimal
GPU id, exactly when the backend is `cuda`. -/
theorem launch_command (env : Env) (cfg : Config) (f : String) (tr : List Event)
    (hb : cfg.backend = "cpu" ∨ cfg.backend = "cuda" ∨ cfg.backend = "metal") :
    let cmd := specServerCmd cfg.backend cfg.port cfg.nKv cfg.nParallel cfg.verbose f
    let gpu : List Event :=
      if cfg.backend = "cuda" then [.setenv "CUDA_VISIBLE_DEVICES" (toString cfg.gpuId)]
      else []
    let pre := tr ++ [.out "[+] Running server\n"] ++ gpu
    runServer env cfg f tr =
      (if env.systemStatus pre cmd ≠ 0 then
        ⟨.exit 1, pre ++ [.system cmd, .err ("[-] Error executing command: " ++ cmd ++ "\n")]⟩
       else ⟨.exit 0, pre ++ [.system cmd]⟩) ∧
    systemCalls (runServer env cfg f tr).trace = systemCalls tr ++ [cmd] ∧
    (gpu ≠ [] ↔ cfg.backend = "cuda") := by
  intro cmd gpu pre
  have hcmd := serverCmd_eq_spec cfg.backend cfg.port cfg.nKv cfg.nParallel cfg.verbose f hb
  have hrun : runServer env cfg f tr =
      (if env.systemStatus pre cmd ≠ 0 then
        ⟨.exit 1, pre ++ [.system cmd, .err ("[-] Error executing command: " ++ cmd ++ "\n")]⟩
       else ⟨.exit 0, pre ++ [.system cmd]⟩) := by
    simp only [cmd, pre, gpu]
    rcases hb with h | h | h <;> cases hv : cfg.verbose <;>
      simp [h, hv] at hcmd <;>
      simp only [runServer, runCommand, h, hv, hcmd, to_string] <;>
      split_ifs <;> simp_all
  refine ⟨hrun, ?_, ?_⟩
  · rw [hrun]
    simp only [pre, gpu]
    split <;> split <;> simp [systemCalls, List.filterMap_append]
  · simp only [gpu]
    split <;> simp_all

/-! ## Build -/

/-- C4, as the code has it: a run that reaches the build step with a backend
other than `cpu`, `cuda`, `metal` enters the working copy and runs
`make clean`; it then ends with status 1 (after the "Unknown backend" message
when `make clean` succeeded).  `make clean` is the only command of the step:
no `make -j llama-server` command is issued and the server is not started. -/
theorem unknown_backend_after_clean (env : Env) (cfg : Config) (wfile : String)
    (tr : List Event)
    (hb : cfg.backend ≠ "cpu" ∧ cfg.backend ≠ "cuda" ∧ cfg.backend ≠ "metal") :
    let tr1 := tr ++ [.chdir (llamaCppDir cfg.port)]
    fromBuild env cfg wfile tr =
      (if env.systemStatus tr1 "make clean" ≠ 0 then
        ⟨.exit 1, tr1 ++ [.system "make clean",
                          .err "[-] Error executing command: make clean\n"]⟩
       else
        ⟨.exit 1, tr1 ++ [.system "make clean",
                          .err ("[-] Unknown backend: " ++ cfg.backend ++ "\n")]⟩) ∧
    (fromBuild env cfg wfile tr).outcome = .exit 1 ∧
    systemCalls (fromBuild env cfg wfile tr).trace = systemCalls tr ++ ["make clean"] := by
  intro tr1
  obtain ⟨h1, h2, h3⟩ := hb
  have hrun : fromBuild env cfg wfile tr =
      (if env.systemStatus tr1 "make clean" ≠ 0 then
        ⟨.exit 1, tr1 ++ [.system "make clean",
                          .err "[-] Error executing command: make clean\n"]⟩
       else
        ⟨.exit 1, tr1 ++ [.system "make clean",
                          .err ("[-] Unknown backend: " ++ cfg.backend ++ "\n")]⟩) := by
    simp only [tr1, fromBuild, buildLlama, runCommand, changeDirectory]
    split_ifs <;> simp_all
  refine ⟨hrun, ?_, ?_⟩
  · rw [hrun]; split <;> rfl
  · rw [hrun]
    simp only [tr1]
    split <;> simp [systemCalls, List.filterMap_append]

/-! ## Selection with a supplied tag -/

theorem wtypeIndexFrom_eq (wtype : String) (i : Nat) (ws : List String) :
    wtypeIndexFrom wtype i ws = if wtype ∈ ws then some (i + ws.indexOf wtype) else none := by
  induction ws generalizing i with
  | nil => simp [wtypeIndexFrom]
  | cons w ws ih =>
    simp only [wtypeIndexFrom]
    by_cases h : w = wtype
    · subst h
      simp
    · have h' : ¬ wtype = w := fun e => h e.symm
      rw [if_neg h, ih, List.indexOf_cons_ne _ h]
      simp only [List.mem_cons, h', false_or]
      split
      · simp; omega
      · rfl

theorem selectWeights_supplied (fuel : Nat) (wtype : String) (wfiles : List String) (cin : Cin)
    (tr : List Event) (hw : wtype ≠ "") :
    selectWeights fuel wtype wfiles cin tr =
      if wtype ∈ wtypes ∧ wfiles.getD (wtypes.indexOf wtype) "" ≠ "" then
        some (.ok (wtype, wfiles.getD (wtypes.indexOf wtype) "", cin,
          tr ++ [.out ("[+] Selected weight type: " ++ wtype ++
            " (" ++ wfiles.getD (wtypes.indexOf wtype) "" ++ ")\n")]))
      else some (.error ⟨.exit 1, tr ++ [.err ("[-] Invalid weight type: " ++ wtype ++ "\n")]⟩) := by
  simp only [selectWeights, if_neg hw, checkSuppliedWtype, wtypeIndexFrom_eq, Nat.zero_add]
  by_cases hmem : wtype ∈ wtypes
  · by_cases he : wfiles.getD (wtypes.indexOf wtype) "" = ""
    · simp [hmem, he, -List.getD_eq_getElem?_getD]
    · simp [hmem, he, -List.getD_eq_getElem?_getD]
  · simp [hmem]

/-! ## Nothing is run before the selection -/

theorem systemCalls_append (a b : List Event) :
    systemCalls (a ++ b) = systemCalls a ++ systemCalls b := by
  simp [systemCalls, List.filterMap_append]

theorem systemCalls_repoMenu (i : Nat) (rs : List String) : systemCalls (repoMenu i rs) = [] := by
  induction rs generalizing i with
  | nil => rfl
  | cons r rs ih =>
    simp only [repoMenu]
    exact ih (i + 1)

theorem selectRepoLoop_systemCalls (fuel : Nat) (cin cin' : Cin) (tr tr' : List Event)
    (repo : String) (h : selectRepoLoop fuel cin tr = some (.ok (repo, cin', tr'))) :
    systemCalls tr' = systemCalls tr := by
  induction fuel generalizing cin tr with
  | zero => simp [selectRepoLoop] at h
  | succ fuel ih =>
    simp only [selectRepoLoop] at h
    split_ifs at h with h1 h2
    · split at h
      · cases h
      · split_ifs at h
        · cases h
          simp [systemCalls_append, systemCalls]
        · rw [ih _ _ h]
          simp [systemCalls_append, systemCalls]
    · cases h
      simp [systemCalls_append, systemCalls]
    · rw [ih _ _ h]
      simp [systemCalls_append, systemCalls]

theorem resolveRepo_systemCalls (fuel : Nat) (repo0 : String) (cin cin' : Cin)
    (tr tr' : List Event) (repo : String)
    (h : resolveRepo fuel repo0 cin tr = some (.ok (repo, cin', tr'))) :
    systemCalls tr' = systemCalls tr := by
  simp only [resolveRepo] at h
  split_ifs at h
  · split at h
    · cases h
    · cases h
    next r c t heq =>
      cases h
      rw [selectRepoLoop_systemCalls _ _ _ _ _ _ heq, systemCalls_append, systemCalls_append,
        systemCalls_repoMenu]
      simp [systemCalls]
  · cases h
    rfl

theorem catalogLoop_systemCalls (env : Env) (files w : List String) (tr : List Event) :
    systemCalls (catalogLoop env files w tr).2 = systemCalls tr := by
  induction files generalizing w tr with
  | nil => rfl
  | cons f fs ih =>
    simp only [catalogLoop]
    split
    · exact ih w tr
    · rw [ih]
      simp [systemCalls_append, systemCalls]

theorem toSelection_systemCalls (env : Env) (fuel : Nat) (args : List String)
    (stdin : List Char) (cfg : Config) (repo : String) (wfiles : List String) (cin : Cin)
    (tr : List Event)
    (h : toSelection env fuel args stdin = some (.ok (cfg, repo, wfiles, cin, tr))) :
    systemCalls tr = [] := by
  simp only [toSelection] at h
  split_ifs at h
  · cases h
  · cases h
  · cases h
  · split at h
    · cases h
    next cfg0 _ =>
      split at h
      · cases h
      · cases h
      next r c t heq =>
        simp only [Option.some.injEq, Except.ok.injEq, Prod.mk.injEq] at h
        obtain ⟨_, _, _, _, htr⟩ := h
        rw [← htr]
        simp only [buildCatalog]
        rw [catalogLoop_systemCalls, systemCalls_append,
          resolveRepo_systemCalls _ _ _ _ _ _ _ heq]
        split <;> simp [systemCalls]

/-- C5: for a run that reaches the weight type selection with a non-empty tag
supplied by `--wtype`, the selection is passed exactly when the supplied
string is one of the 15 tag strings and the catalog entry of that tag is not
empty; the selected file is then that entry and the run goes on to the
download.  Otherwise the run ends with status 1 after the message, and its
whole trace holds no command at all. -/
theorem supplied_wtype_selection (env : Env) (fuel : Nat) (args : List String)
    (stdin : List Char) (cfg : Config) (repo : String) (wfiles : List String) (cin : Cin)
    (tr : List Event)
    (hrun : toSelection env fuel args stdin = some (.ok (cfg, repo, wfiles, cin, tr)))
    (hw : cfg.wtype ≠ "") :
    let entry := wfiles.getD (wtypes.indexOf cfg.wtype) ""
    let picked := tr ++ [.out ("[+] Selected weight type: " ++ cfg.wtype ++ " (" ++ entry ++ ")\n")]
    let refused := tr ++ [.err ("[-] Invalid weight type: " ++ cfg.wtype ++ "\n")]
    (cfg.wtype ∈ wtypes ∧ entry ≠ "" →
      selectWeights fuel cfg.wtype wfiles cin tr = some (.ok (cfg.wtype, entry, cin, picked)) ∧
      main env fuel args stdin = some (fromDownload env cfg repo entry picked)) ∧
    (¬ (cfg.wtype ∈ wtypes ∧ entry ≠ "") →
      selectWeights fuel cfg.wtype wfiles cin tr = some (.error ⟨.exit 1, refused⟩) ∧
      main env fuel args stdin = some ⟨.exit 1, refused⟩ ∧
      systemCalls refused = []) := by
  intro entry picked refused
  have hsel := selectWeights_supplied fuel cfg.wtype wfiles cin tr hw
  constructor
  · intro hc
    rw [if_pos hc] at hsel
    refine ⟨hsel, ?_⟩
    simp only [main, hrun, fromSelection, hsel]
  · intro hc
    rw [if_neg hc] at hsel
    refine ⟨hsel, ?_, ?_⟩
    · simp only [main, hrun, fromSelection, hsel]
    · simp only [refused]
      rw [systemCalls_append, toSelection_systemCalls _ _ _ _ _ _ _ _ _ hrun]
      rfl

/-! ## Argument parsing -/

theorem parseArgs_append (n : Nat) : ∀ (pre l : List String) (cfg cfg' : Config) (tr : List Event),
    pre.length ≤ n → parseArgs pre cfg tr = .ok cfg' →
    parseArgs (pre ++ l) cfg tr = parseArgs l cfg' tr := by
  induction n with
  | zero =>
    intro pre l cfg cfg' tr hlen h
    have : pre = [] := List.length_eq_zero.mp (Nat.le_zero.mp hlen)
    subst this
    simp only [parseArgs, Except.ok.injEq] at h
    subst h
    rfl
  | succ n ih =>
    intro pre l cfg cfg' tr hlen h
    match pre, hlen, h with
    | [], _, h =>
      simp only [parseArgs, Except.ok.injEq] at h
      subst h
      rfl
    | [a], _, h =>
      rw [List.singleton_append]
      rw [parseArgs.eq_3] at h
      by_cases h0 : a = "--non-interactive"
      · rw [if_pos h0, parseArgs.eq_1] at h
        cases h
        cases l with
        | nil => rw [parseArgs.eq_3, if_pos h0]
        | cons v l2 => rw [parseArgs.eq_2, if_pos h0]
      by_cases h1 : a = "--port"
      · rw [if_neg h0, if_pos h1] at h
        cases h
      by_cases h2 : a = "--repo"
      · rw [if_neg h0, if_neg h1, if_pos h2] at h
        cases h
      by_cases h3 : a = "--wtype"
      · rw [if_neg h0, if_neg h1, if_neg h2, if_pos h3] at h
        cases h
      by_cases h4 : a = "--backend"
      · rw [if_neg h0, if_neg h1, if_neg h2, if_neg h3, if_pos h4] at h
        cases h
      by_cases h5 : a = "--gpu-id"
      · rw [if_neg h0, if_neg h1, if_neg h2, if_neg h3, if_neg h4, if_pos h5] at h
        cases h
      by_cases h6 : a = "--n-parallel"
      · rw [if_neg h0, if_neg h1, if_neg h2, if_neg h3, if_neg h4, if_neg h5, if_pos h6] at h
        cases h
      by_cases h7 : a = "--n-kv"
      · rw [if_neg h0, if_neg h1, if_neg h2, if_neg h3, if_neg h4, if_neg h5, if_neg h6, if_pos h7] at h
        cases h
      by_cases h8 : a = "--verbose"
      · rw [if_neg h0, if_neg h1, if_neg h2, if_neg h3, if_neg h4, if_neg h5, if_neg h6, if_neg h7, if_pos h8, parseArgs.eq_1] at h
        cases h
        cases l with
        | nil => rw [parseArgs.eq_3, if_neg h0, if_neg h1, if_neg h2, if_neg h3, if_neg h4, if_neg h5, if_neg h6, if_neg h7, if_pos h8]
        | cons v l2 => rw [parseArgs.eq_2, if_neg h0, if_neg h1, if_neg h2, if_neg h3, if_neg h4, if_neg h5, if_neg h6, if_neg h7, if_pos h8]
      by_cases h9 : a = "--help"
      · rw [if_neg h0, if_neg h1, if_neg h2, if_neg h3, if_neg h4, if_neg h5, if_neg h6, if_neg h7, if_neg h8, if_pos h9] at h
        cases h
      rw [if_neg h0, if_neg h1, if_neg h2, if_neg h3, if_neg h4, if_neg h5, if_neg h6, if_neg h7, if_neg h8, if_neg h9] at h
      cases h
    | a :: v :: rest, hlen, h =>
      have hl1 : (v :: rest).length ≤ n := by simp at hlen ⊢; omega
      have hl2 : rest.length ≤ n := by simp at hlen ⊢; omega
      rw [List.cons_append, List.cons_append, parseArgs.eq_2]
      rw [parseArgs.eq_2] at h
      by_cases h0 : a = "--non-interactive"
      · rw [if_pos h0] at h ⊢
        exact ih (v :: rest) l _ _ _ hl1 h
      by_cases h1 : a = "--port"
      · rw [if_neg h0, if_pos h1] at h ⊢
        cases hs : stoi v with
        | error e => rw [hs] at h; cases h
        | ok k =>
          rw [hs] at h
          exact ih rest l _ _ _ hl2 h
      by_cases h2 : a = "--repo"
      · rw [if_neg h0, if_neg h1, if_pos h2] at h ⊢
        exact ih rest l _ _ _ hl2 h
      by_cases h3 : a = "--wtype"
      · rw [if_neg h0, if_neg h1, if_neg h2, if_pos h3] at h ⊢
        exact ih rest l _ _ _ hl2 h
      by_cases h4 : a = "--backend"
      · rw [if_neg h0, if_neg h1, if_neg h2, if_neg h3, if_pos h4] at h ⊢
        exact ih rest l _ _ _ hl2 h
      by_cases h5 : a = "--gpu-id"
      · rw [if_neg h0, if_neg h1, if_neg h2, if_neg h3, if_neg h4, if_pos h5] at h ⊢
        cases hs : stoi v with
        | error e => rw [hs] at h; cases h
        | ok k =>
          rw [hs] at h
          exact ih rest l _ _ _ hl2 h
      by_cases h6 : a = "--n-parallel"
      · rw [if_neg h0, if_neg h1, if_neg h2, if_neg h3, if_neg h4, if_neg h5, if_pos h6] at h ⊢
        cases hs : stoi v with
        | error e => rw [hs] at h; cases h
        | ok k =>
          rw [hs] at h
          exact ih rest l _ _ _ hl2 h
      by_cases h7 : a = "--n-kv"
      · rw [if_neg h0, if_neg h1, if_neg h2, if_neg h3, if_neg h4, if_neg h5, if_neg h6, if_pos h7] at h ⊢
        cases hs : stoi v with
        | error e => rw [hs] at h; cases h
        | ok k =>
          rw [hs] at h
          exact ih rest l _ _ _ hl2 h
      by_cases h8 : a = "--verbose"
      · rw [if_neg h0, if_neg h1, if_neg h2, if_neg h3, if_neg h4, if_neg h5, if_neg h6, if_neg h7, if_pos h8] at h ⊢
        exact ih (v :: rest) l _ _ _ hl1 h
      by_cases h9 : a = "--help"
      · rw [if_neg h0, if_neg h1, if_neg h2, if_neg h3, if_neg h4, if_neg h5, if_neg h6, if_neg h7, if_neg h8, if_pos h9] at h
        cases h
      rw [if_neg h0, if_neg h1, if_neg h2, if_neg h3, if_neg h4, if_neg h5, if_neg h6, if_neg h7, if_neg h8, if_neg h9] at h
      cases h

theorem parseArgs_unknown (arg : String) (rest : List String) (cfg : Config) (tr : List Event)
    (h : arg ∉ knownFlags) :
    parseArgs (arg :: rest) cfg tr =
      .error ⟨.exit 1, tr ++ [.err ("[-] Unknown argument: " ++ arg ++ "\n"), .out usageText]⟩ := by
  simp only [knownFlags, List.mem_cons, List.mem_singleton, List.not_mem_nil, or_false,
    not_or] at h
  obtain ⟨h0, h1, h2, h3, h4, h5, h6, h7, h8, h9⟩ := h
  cases rest with
  | nil =>
    rw [parseArgs.eq_3, if_neg h0, if_neg h1, if_neg h2, if_neg h3, if_neg h4, if_neg h5,
      if_neg h6, if_neg h7, if_neg h8, if_neg h9]
    simp [printUsage]
  | cons v rest =>
    rw [parseArgs.eq_2, if_neg h0, if_neg h1, if_neg h2, if_neg h3, if_neg h4, if_neg h5,
      if_neg h6, if_neg h7, if_neg h8, if_neg h9]
    simp [printUsage]

theorem parseArgs_missing (flag : String) (cfg : Config) (tr : List Event)
    (h : flag ∈ valueFlags) :
    parseArgs [flag] cfg tr =
      .error ⟨.exit 1, tr ++ [.err ("[-] Missing value for " ++ flag ++ "\n"), .out usageText]⟩ := by
  simp only [valueFlags, List.mem_cons, List.mem_singleton, List.not_mem_nil, or_false] at h
  rcases h with rfl | rfl | rfl | rfl | rfl | rfl | rfl <;>
    simp [parseArgs, missingValue, printUsage]

/-- The two kinds of malformed command line that the parsing loop handles: after
arguments that parse (so with no `--help` among them), an unknown argument, or
a value-taking flag in last position, ends the run with the message, the usage
text and status 1, before anything else is done. -/
theorem malformed_arguments_usage (env : Env) (fuel : Nat) (stdin : List Char)
    (pre rest : List String) (arg : String) (cfg : Config)
    (hcurl : commandExists env "curl" = true) (hgit : commandExists env "git" = true)
    (hmake : commandExists env "make" = true)
    (hpre : parseArgs pre { backend := defaultBackend env } [] = .ok cfg) :
    (arg ∉ knownFlags →
      main env fuel (pre ++ arg :: rest) stdin =
        some ⟨.exit 1, [.err ("[-] Unknown argument: " ++ arg ++ "\n"), .out usageText]⟩) ∧
    (arg ∈ valueFlags →
      main env fuel (pre ++ [arg]) stdin =
        some ⟨.exit 1, [.err ("[-] Missing value for " ++ arg ++ "\n"), .out usageText]⟩) := by
  constructor
  · intro h
    have hp := parseArgs_append pre.length pre (arg :: rest) _ cfg [] (Nat.le_refl _) hpre
    rw [parseArgs_unknown arg rest cfg [] h] at hp
    simp [main, toSelection, hcurl, hgit, hmake, hp]
  · intro h
    have hp := parseArgs_append pre.length pre [arg] _ cfg [] (Nat.le_refl _) hpre
    rw [parseArgs_missing arg cfg [] h] at hp
    simp [main, toSelection, hcurl, hgit, hmake, hp]

theorem malformed_arguments_usage_sample :
    main (sampleEnv [] []) 0 (["--verbose", "--port", "8080"] ++ "--frobnicate" :: ["x"]) [] =
      some ⟨.exit 1, [.err "[-] Unknown argument: --frobnicate\n", .out usageText]⟩ :=
  (malformed_arguments_usage (sampleEnv [] []) 0 [] ["--verbose", "--port", "8080"] ["x"]
    "--frobnicate" { verbose := true, port := 8080 } (by decide) (by decide) (by decide)
    (by rfl)).1 (by decide)

/-! ## Concrete runs -/

theorem catalog_last_claimed_witness :
    (buildCatalog (sampleEnv [] []) ["model.F16.gguf", "a.q8_0.gguf", "README.md", "b.Q8_0.gguf"] []).1 =
      (List.range wtypes.length).map
        (lastClaimed ["model.F16.gguf", "a.q8_0.gguf", "README.md", "b.Q8_0.gguf"]) :=
  (catalog_last_claimed (sampleEnv [] []) []
    ["model.F16.gguf", "a.q8_0.gguf", "README.md", "b.Q8_0.gguf"]).2.1

theorem catalog_sample :
    (buildCatalog (sampleEnv [] []) ["model.F16.gguf", "a.q8_0.gguf", "README.md", "b.Q8_0.gguf"] []).1 =
      ["model.F16.gguf", "b.Q8_0.gguf", "", "", "", "", "", "", "", "", "", "", "", "", ""] := by
  decide

theorem cache_gate_witness :
    fetchWeights (sampleEnv ["model.F16.gguf", "model.F16.gguf.chk"] ["model.F16.gguf"])
        "https://huggingface.co/TheBloke/Llama-2-7B-GGUF" "model.F16.gguf" [] =
      .ok [.out "[+] Using cached weights model.F16.gguf\n"] :=
  (cache_gate (sampleEnv ["model.F16.gguf", "model.F16.gguf.chk"] ["model.F16.gguf"])
    "https://huggingface.co/TheBloke/Llama-2-7B-GGUF" "model.F16.gguf" []
    (by decide) (by decide)).2.2.1

theorem download_marker_witness :
    fetchWeights (sampleEnv [] ["model.F16.gguf", "model.Q8_0.gguf"])
        "https://huggingface.co/TheBloke/Llama-2-7B-GGUF" "model.Q8_0.gguf" [] =
      .ok [.out ("[+] Downloading weights from " ++
              "https://huggingface.co/TheBloke/Llama-2-7B-GGUF/resolve/main/model.Q8_0.gguf\n"),
           .system ("curl -o \"model.Q8_0.gguf\" -# -L " ++
              "\"https://huggingface.co/TheBloke/Llama-2-7B-GGUF/resolve/main/model.Q8_0.gguf\""),
           .create "model.Q8_0.gguf.chk"] :=
  (download_marker (sampleEnv [] ["model.F16.gguf", "model.Q8_0.gguf"]) {}
    "https://huggingface.co/TheBloke/Llama-2-7B-GGUF" "model.Q8_0.gguf" []
    (by decide) (by decide) (by decide)).1 (by decide)

theorem foreign_directory_untouched_witness :
    fromWorkspace (sampleEnv ["__llama_cpp_port_8888__"] []) {} "model.F16.gguf" [] =
      ⟨.exit 1, [.err "[-] Directory __llama_cpp_port_8888__ already exists\n",
                 .err "[-] Please remove it and try again\n"]⟩ :=
  (foreign_directory_untouched (sampleEnv ["__llama_cpp_port_8888__"] []) {} "model.F16.gguf" []
    (by decide) (by decide)).2.2.1

theorem launch_command_witness :
    systemCalls (runServer (sampleEnv [] []) { backend := "cuda", verbose := true }
        "model.F16.gguf" []).trace =
      ["./llama-server -m \"../model.F16.gguf\" --host 0.0.0.0 --port 8888 -c 4096 -np \"8\" -ngl 999 --verbose"] :=
  (launch_command (sampleEnv [] []) { backend := "cuda", verbose := true } "model.F16.gguf" []
    (by decide)).2.1

theorem unknown_backend_after_clean_witness :
    systemCalls (fromBuild (sampleEnv [] []) { backend := "bogus" } "model.F16.gguf" []).trace =
      ["make clean"] :=
  (unknown_backend_after_clean (sampleEnv [] []) { backend := "bogus" } "model.F16.gguf" []
    (by decide)).2.2

theorem supplied_wtype_selection_witness :
    main (sampleEnv [] ["model.F16.gguf"]) 0
        ["--non-interactive", "--repo", "https://huggingface.co/TheBloke/Llama-2-7B-GGUF",
         "--wtype", "Q4_0"] [] =
      some ⟨.exit 1, [.out "[+] Model files:\n\n", .out "    1)   model.F16.gguf\n",
                      .err "[-] Invalid weight type: Q4_0\n"]⟩ :=
  ((supplied_wtype_selection (sampleEnv [] ["model.F16.gguf"]) 0
      ["--non-interactive", "--repo", "https://huggingface.co/TheBloke/Llama-2-7B-GGUF",
       "--wtype", "Q4_0"] []
      { isInteractive := false, repo := "https://huggingface.co/TheBloke/Llama-2-7B-GGUF",
        wtype := "Q4_0" }
      "https://huggingface.co/TheBloke/Llama-2-7B-GGUF"
      ["model.F16.gguf", "", "", "", "", "", "", "", "", "", "", "", "", "", ""]
      { buf := [] }
      [.out "[+] Model files:\n\n", .out "    1)   model.F16.gguf\n"]
      (by rfl) (by decide)).2 (by decide)).2.1

set_option maxRecDepth 100000 in
/-- C6, as stated, fails for a repository that holds a NUL character: typed at
the repository prompt, `http://h/r` followed by a NUL and `zzz` is accepted
and is already normalised, and the command that reaches `system` ends at the
NUL, so the transfer is not requested from
`r ++ "/resolve/main/model.Q8_0.gguf"`. -/
theorem download_url_cut_at_nul :
    normalizeRepo "http://h/r\x00zzz" = "http://h/r\x00zzz" ∧
    (main (sampleEnv [] ["model.Q8_0.gguf"]) 1 ["--wtype", "Q8_0"]
        "\nhttp://h/r\x00zzz\n".data).map (fun r => (systemCalls r.trace).take 1) =
      some ["curl -o \"model.Q8_0.gguf\" -# -L \"http://h/r"] ∧
    "curl -o \"model.Q8_0.gguf\" -# -L \"http://h/r" ≠
      "curl -o \"model.Q8_0.gguf\" -# -L \"" ++
        ("http://h/r\x00zzz" ++ "/resolve/main/" ++ "model.Q8_0.gguf") ++ "\"" := by
  refine ⟨by decide, by decide, by decide⟩

set_option maxRecDepth 100000 in
/-- C4, as stated, fails: with `--backend bogus` the run downloads the weights,
clones the working copy and invokes `make clean` before the backend is looked
at; it ends with status 1 only then.  And a run with `--backend bogus` that
does not reach the build step need not end with status 1: with `--help` after
it, the run prints the usage text and returns 0. -/
theorem bogus_backend_runs_make_clean :
    (main (sampleEnv [] ["model.F16.gguf"]) 0
        ["--non-interactive", "--repo", "https://huggingface.co/TheBloke/Llama-2-7B-GGUF",
         "--wtype", "F16", "--backend", "bogus"] []).map
      (fun r => (r.outcome, systemCalls r.trace)) =
    some (.exit 1,
      ["curl -o \"model.F16.gguf\" -# -L \"https://huggingface.co/TheBloke/Llama-2-7B-GGUF/resolve/main/model.F16.gguf\"",
       "git clone https://github.com/ggerganov/llama.cpp __llama_cpp_port_8888__",
       "make clean"]) ∧
    main (sampleEnv [] []) 0 ["--backend", "bogus", "--help"] [] =
      some ⟨.exit 0, [.out usageText]⟩ := by
  refine ⟨by decide, by decide⟩

set_option maxRecDepth 100000 in
/-- C8 at `--port abc`: `std::stoi` throws `std::invalid_argument`, nothing
catches it, and the process is aborted without the usage text and without
exit status 1.  The sibling branch for a missing value does print the usage
text and return 1, and text with a numeric start such as `12abc` is accepted
as 12. -/
theorem port_abc_uncaught :
    main (sampleEnv [] []) 0 ["--port", "abc"] [] = some ⟨.uncaught .invalid_argument, []⟩ ∧
    main (sampleEnv [] []) 0 ["--port"] [] =
      some ⟨.exit 1, [.err "[-] Missing value for --port\n", .out usageText]⟩ ∧
    stoi "12abc" = .ok 12 := by
  refine ⟨by decide, by decide, by rfl⟩

set_option maxRecDepth 100000 in
/-- C9 at the example of the usage text: with a listing whose file
`model.Q8_0.gguf` is claimed by tag `Q8_0`, the arguments
`--repo <url> --wtype q8_0` end the run with status 1 and the message
"Invalid weight type: q8_0"; the tag is compared with `==`, and none of the
spellings `f16`, `q8_0`, `q4_0`, `q4_1` of the usage text is in `wtypes`. -/
theorem usage_example_rejected :
    lastClaimed ["model.Q8_0.gguf"] 1 = "model.Q8_0.gguf" ∧
    main (sampleEnv [] ["model.Q8_0.gguf"]) 0
        ["--repo", "https://huggingface.co/TheBloke/Llama-2-7B-GGUF", "--wtype", "q8_0"]
        ['\n'] =
      some ⟨.exit 1, [.out introText, .out "[+] Model files:\n\n",
                      .out "    2)   model.Q8_0.gguf\n",
                      .err "[-] Invalid weight type: q8_0\n"]⟩ ∧
    (∀ w ∈ ["f16", "q8_0", "q4_0", "q4_1"], wtypeIndexFrom w 0 wtypes = none) := by
  refine ⟨by decide, by decide, by decide⟩

/-! ## The two end-to-end scenarios of the specification -/

theorem scenario_download :
    (main (sampleEnv [] ["model.F16.gguf", "model.Q8_0.gguf"]) 0
        ["--non-interactive", "--repo", "https://huggingface.co/TheBloke/Llama-2-7B-GGUF",
         "--wtype", "Q8_0"] []).map
      (fun r => (r.outcome, r.trace.take 6)) =
    some (.exit 0,
      [.out "[+] Model files:\n\n",
       .out "    1)   model.F16.gguf\n",
       .out "    2)   model.Q8_0.gguf\n",
       .out "[+] Selected weight type: Q8_0 (model.Q8_0.gguf)\n",
       .out ("[+] Downloading weights from " ++
          "https://huggingface.co/TheBloke/Llama-2-7B-GGUF/resolve/main/model.Q8_0.gguf\n"),
       .system ("curl -o \"model.Q8_0.gguf\" -# -L " ++
          "\"https://huggingface.co/TheBloke/Llama-2-7B-GGUF/resolve/main/model.Q8_0.gguf\"")]) := by
  decide

theorem scenario_cached :
    (main (sampleEnv ["model.F16.gguf", "model.F16.gguf.chk"] ["model.F16.gguf", "model.Q8_0.gguf"]) 0
        ["--non-interactive", "--repo", "https://huggingface.co/TheBloke/Llama-2-7B-GGUF",
         "--wtype", "F16"] []).map
      (fun r => (r.outcome, r.trace.take 5, systemCalls r.trace)) =
    some (.exit 0,
      [.out "[+] Model files:\n\n",
       .out "    1) * model.F16.gguf\n",
       .out "    2)   model.Q8_0.gguf\n",
       .out "[+] Selected weight type: F16 (model.F16.gguf)\n",
       .out "[+] Using cached weights model.F16.gguf\n"],
      ["git clone https://github.com/ggerganov/llama.cpp __llama_cpp_port_8888__",
       "make clean",
       "make -j llama-server --silent",
       "./llama-server -m \"../model.F16.gguf\" --host 0.0.0.0 --port 8888 -c 4096 -np \"8\" -ngl 0"]) := by
  decide

end PhotoSage
